import Mathlib

/-!
Verification development for a container checkpoint/restore extension.

The development shallowly embeds the core operations of the repository:

* `patch-criu.go` — the image rewriter (`rewriteBytes`, `rewriteIPAddress`,
  `rewriteMacAddress`);
* `daemon/inspect.go` — the checkpoint ordering loop of `ContainerInspect`;
* `daemon/execdriver/native/driver.go` — the dump argument list of
  `Checkpoint` and the control flow of `execRestore`;
* the daemon checkpoint/restore job handlers (`ContainerCheckpoint`,
  `ContainerRestore`, `clone`, `patchImage`).

File contents are byte lists; filesystem state visible to an operation is
passed explicitly; results of external tools and of fallible system calls
are inputs of the embedded functions.
-/

namespace DockerCR

/-- A file content: a list of byte values. -/
abbrev Bytes := List Nat

/-- Embeds Go `bytes.Index(data, pat)`: index of the first occurrence of
`pat` in `data`, `none` when absent.  As in Go, an empty pattern matches at
index 0. -/
def bytesIndex : Bytes → Bytes → Option Nat
  | [], pat => if pat.isPrefixOf ([] : Bytes) then some 0 else none
  | a :: rest, pat =>
    if pat.isPrefixOf (a :: rest) then some 0
    else (bytesIndex rest pat).map (· + 1)

/-- Embeds Go `copy(data[pos:pos+len(src)], src)`: overlay `src` onto `data`
starting at `pos`, truncated at the end of `data` (Go `copy` writes
`min(len(dst), len(src))` bytes). -/
def listCopy (data : Bytes) (pos : Nat) (src : Bytes) : Bytes :=
  data.take pos ++ src.take (data.length - pos) ++ data.drop (pos + src.length)

/-- Embeds the loop of `rewriteBytes` in `patch-criu.go`:

    for { pos := bytes.Index(data, from); if pos == -1 break;
          copy(data[pos:pos+len(to)], to); replaced++ }

The Go loop has no termination guarantee (it loops forever when the
replacement leaves the found occurrence in place), so the embedding takes a
fuel parameter; `none` means the loop has not finished within `fuel`
iterations.  On `some (d, n)`, `d` is the final buffer and `n` the value of
the Go `replaced` counter. -/
def rewriteBytes : Nat → Bytes → Bytes → Bytes → Option (Bytes × Nat)
  | 0, _, _, _ => none
  | fuel + 1, data, pat, repl =>
    match bytesIndex data pat with
    | none => some (data, 0)
    | some pos =>
      match rewriteBytes fuel (listCopy data pos repl) pat repl with
      | none => none
      | some (d, n) => some (d, n + 1)

/-- Inputs of `rewriteIPAddress` that come from the filesystem and from
external code: the two source files, the result of running
`ip addr showdump` and matching the regular expression on its output
(composed with `net.ParseIP(...).To4()`, yielding the discovered old
address bytes), and the result of `net.ParseIP` on the directive value. -/
structure IpEnv where
  /-- `ioutil.ReadFile(src/ifaddr-8.img)`; `none` is a read error. -/
  srcIfaddr : Option Bytes
  /-- `ioutil.ReadFile(src/route-8.img)`; `none` is a read error. -/
  srcRoute : Option Bytes
  /-- whether the external `ip addr showdump` command succeeded. -/
  dumpOk : Bool
  /-- the regex match over the dump, parsed to 4 old-address bytes;
  `none` when the regex does not match. -/
  found : Option Bytes
  /-- whether `net.ParseIP(ip)` returned non-nil. -/
  newParseOk : Bool
  /-- the `To4()` bytes of the parsed new address. -/
  newAddr : Bytes

/-- Destination-directory files touched by `rewriteIPAddress`. -/
structure IpDest where
  ifaddr : Option Bytes
  route : Option Bytes
  deriving DecidableEq

/-- Embeds `rewriteIPAddress` of `patch-criu.go`, threading the destination
directory state.  Each `replaceWrite` is modelled by setting the file
contents.  `none` means the underlying `rewriteBytes` loop did not
terminate within `fuel`. -/
def rewriteIPAddress (fuel : Nat) (env : IpEnv) (dest : IpDest) :
    Option (Except String Unit × IpDest) :=
  match env.srcIfaddr with
  | none => some (.error "read ifaddr-8.img failed", dest)
  | some data =>
    if env.dumpOk = false then some (.error "ip addr showdump failed", dest)
    else
      match env.found with
      | none => some (.error "cant find old inet address", dest)
      | some oldAddress =>
        if env.newParseOk = false then
          some (.error "cant parse as an IPv4 Address", dest)
        else
          match rewriteBytes fuel data oldAddress env.newAddr with
          | none => none
          | some (data2, n) =>
            if n < 1 then
              some (.error "cant find old address pos in ip addr dump", dest)
            else
              let dest2 : IpDest := { dest with ifaddr := some data2 }
              match env.srcRoute with
              | none => some (.error "read route-8.img failed", dest2)
              | some routeData =>
                match rewriteBytes fuel routeData oldAddress env.newAddr with
                | none => none
                | some (route2, m) =>
                  if m < 1 then
                    some (.error "cant find old address pos in ip route dump",
                      dest2)
                  else some (.ok (), { dest2 with route := some route2 })

/-- Value of a single hexadecimal digit, as in `encoding/hex`. -/
def hexDigit (c : Char) : Option Nat :=
  if '0' ≤ c ∧ c ≤ '9' then some (c.toNat - 48)
  else if 'a' ≤ c ∧ c ≤ 'f' then some (c.toNat - 87)
  else if 'A' ≤ c ∧ c ≤ 'F' then some (c.toNat - 55)
  else none

/-- Embeds Go `hex.DecodeString`: decodes pairs of hex digits; an odd
length or an invalid digit is an error (`none`). -/
def hexDecode : List Char → Option Bytes
  | [] => some []
  | [_] => none
  | a :: b :: rest =>
    match hexDigit a, hexDigit b, hexDecode rest with
    | some x, some y, some r => some ((16 * x + y) :: r)
    | _, _, _ => none

/-- One record of `netdev-8.img`, at the granularity `rewriteMacAddress`
uses it: the optional `Name` field, the `Address` bytes, and the remaining
fields kept opaque (they are carried through unchanged). -/
structure NetDeviceEntry where
  name : Option String
  address : Bytes
  extra : Bytes
  deriving DecidableEq

/-- The per-record update of `rewriteMacAddress`: an `eth0` record gets the
decoded MAC as its address, every other record is unchanged. -/
def updEntry (macHex : Bytes) (e : NetDeviceEntry) : NetDeviceEntry :=
  if e.name = some "eth0" then { e with address := macHex } else e

/-- Embeds the record loop of `rewriteMacAddress`: records are processed in
order and written to the destination one by one; `hex.DecodeString` is only
invoked when an `eth0` record is reached, and its failure aborts the loop.
Returns the records written to the destination and the error, if any. -/
def rewriteMacGo (mac : List Char) :
    List NetDeviceEntry → List NetDeviceEntry × Option String
  | [] => ([], none)
  | e :: rest =>
    if e.name = some "eth0" then
      match hexDecode mac with
      | none => ([], some "invalid mac hex")
      | some macHex =>
        let out := rewriteMacGo mac rest
        ({ e with address := macHex } :: out.1, out.2)
    else
      let out := rewriteMacGo mac rest
      (e :: out.1, out.2)

/-- Embeds `rewriteMacAddress` of `patch-criu.go`.  `src` is the parsed
source `netdev-8.img` (`none` when it cannot be opened); `destPrior` is the
destination file before the call.  The code first removes and recreates the
destination file, then writes records until done or until an error, so on
any error after opening the source the destination holds exactly the
records written so far. -/
def rewriteMacAddress (src : Option (List NetDeviceEntry))
    (destPrior : Option (List NetDeviceEntry)) (mac : List Char) :
    Except String Unit × Option (List NetDeviceEntry) :=
  match src with
  | none => (.error "open netdev-8.img failed", destPrior)
  | some entries =>
    match rewriteMacGo mac entries with
    | (written, some msg) => (.error msg, some written)
    | (written, none) => (.ok (), some written)

/-- Termination of the ip rewrite: some fuel suffices for the
`rewriteBytes` loops of `rewriteIPAddress` to finish. -/
def ipRewriteTerminates (env : IpEnv) (dest : IpDest) : Prop :=
  ∃ fuel r, rewriteIPAddress fuel env dest = some r

/-- A checkpoint as ordered by `ContainerInspect`: only the identifier and
the creation timestamp matter there (`CreatedAt.Before` compares
timestamps; modelled as `Nat`). -/
structure Checkpoint where
  id : String
  createdAt : Nat
  deriving DecidableEq

/-- The inner loop of the checkpoint-ordering code in `ContainerInspect`,
viewed from the back of the array: the argument list is the reversed
accumulated array (the newly appended `c` removed), so its head is the
predecessor `checkpoints[i-1]` of the bubbling element.  The loop swaps
`c` leftwards until `checkpoints[i-1].CreatedAt.Before(c.CreatedAt)`. -/
def bubbleAux (c : Checkpoint) : List Checkpoint → List Checkpoint
  | [] => [c]
  | pred :: rest =>
    if pred.createdAt < c.createdAt then c :: pred :: rest
    else pred :: bubbleAux c rest

/-- One iteration of the outer loop in `ContainerInspect`:
`checkpoints = append(checkpoints, checkpoint)` followed by the backwards
bubble pass. -/
def insertStep (acc : List Checkpoint) (c : Checkpoint) : List Checkpoint :=
  (bubbleAux c acc.reverse).reverse

/-- The checkpoint list built by `ContainerInspect`, as a function of the
sequence in which `range container.Checkpoints` yields the map entries
(Go map enumeration order is unspecified, so it is an input here). -/
def inspectCheckpoints (l : List Checkpoint) : List Checkpoint :=
  l.foldl insertStep []

/-- State of one `/sys/fs/cgroup/<subsys>/docker/<id>` directory as seen by
the cleanup code of `execRestore`: absent, present and removable, or
present with removal failing (e.g. EPERM). -/
inductive DirState
  | missing
  | present
  | presentEperm
  deriving DecidableEq

/-- The fixed subsystem list of the cleanup loop in `execRestore`. -/
def restoreSubsystems : List String :=
  ["devices", "memory", "cpu", "cpuset", "cpuacct", "blkio", "perf_event",
   "freezer"]

/-- Observable actions of `execRestore`, in program order. -/
inductive REvent
  | runFreezer
  | attachBridge
  | ifUp
  | readPidfile
  | findProc (pid : Int)
  | waitProc (pid : Int)
  | killProc (pid : Int)
  | cgStat (s : String)
  | cgRemove (s : String)
  | removePidfile
  deriving DecidableEq

/-- The deferred cgroup cleanup of `execRestore`: for each subsystem,
`os.Stat`; when the directory exists, `os.Remove` is attempted and its
error is discarded. -/
def cgCleanupEvents (cg : String → DirState) : List REvent :=
  restoreSubsystems.flatMap fun s =>
    REvent.cgStat s :: (if cg s = DirState.missing then [] else [REvent.cgRemove s])

/-- Digit value used by the `strconv.Atoi` model. -/
def digitVal (c : Char) : Option Nat :=
  if '0' ≤ c ∧ c ≤ '9' then some (c.toNat - 48) else none

/-- Decimal digits parser: at least one digit, digits only. -/
def parseDigitsAux (acc : Nat) : List Char → Option Nat
  | [] => some acc
  | c :: rest =>
    match digitVal c with
    | none => none
    | some d => parseDigitsAux (acc * 10 + d) rest

/-- Syntactic part of Go `strconv.Atoi`: an optional sign followed by one
or more decimal digits and nothing else; `none` on a syntax error.  (Go
additionally clamps out-of-range values; the width bound is not modelled,
the claims below concern syntactically invalid inputs.) -/
def goAtoiSyn (s : String) : Option Int :=
  match s.data with
  | [] => none
  | '+' :: rest =>
    match rest with
    | [] => none
    | _ => (parseDigitsAux 0 rest).map Int.ofNat
  | '-' :: rest =>
    match rest with
    | [] => none
    | _ => (parseDigitsAux 0 rest).map fun n => -(n : Int)
  | l => (parseDigitsAux 0 l).map Int.ofNat

/-- The value Go `strconv.Atoi` leaves in its first result: the parsed
integer, or `0` when parsing fails — which is what
`pid, _ := strconv.Atoi(string(sPid))` in `execRestore` uses after
discarding the error. -/
def goAtoi (s : String) : Int := (goAtoiSyn s).getD 0

/-- Inputs of `execRestore` from the outside world: results of running the
freezer tool, of the two host-network operations, of reading the pidfile,
of waiting on the restored process, and the cgroup directory states seen by
the deferred cleanup. -/
structure RestoreEnv where
  /-- `c.ProcessConfig.Run()` (the freezer tool in restore mode) succeeded. -/
  runOk : Bool
  /-- `network.SetInterfaceMaster(vethName, "docker0")` succeeded. -/
  attachOk : Bool
  /-- `network.InterfaceUp(vethName)` succeeded. -/
  upOk : Bool
  /-- `ioutil.ReadFile(pidFile)` contents; `none` is a read error. -/
  pidfile : Option String
  /-- `proc.Wait()` returned nil or an exit error (the normal cases). -/
  waitOk : Bool
  /-- exit status of the restored process. -/
  waitStatus : Int
  /-- cgroup directory state per subsystem name. -/
  cgroups : String → DirState

/-- The body of `execRestore` up to (not including) its deferred cleanup:
run the freezer tool, attach and raise the veth, read and parse the
pidfile, find and wait on the restored process.  Returns the Go
`(exit code, error)` result, collapsed into `Except`, and the events in
order. -/
def execRestoreCore (env : RestoreEnv) : Except String Int × List REvent :=
  if env.runOk = false then
    (.error "restore run failed", [REvent.runFreezer])
  else if env.attachOk = false then
    (.error "set interface master failed",
     [REvent.runFreezer, REvent.attachBridge])
  else if env.upOk = false then
    (.error "interface up failed",
     [REvent.runFreezer, REvent.attachBridge, REvent.ifUp])
  else
    match env.pidfile with
    | none =>
      (.error "read pidfile failed",
       [REvent.runFreezer, REvent.attachBridge, REvent.ifUp,
        REvent.readPidfile])
    | some s =>
      let pid := goAtoi s
      let pre := [REvent.runFreezer, REvent.attachBridge, REvent.ifUp,
        REvent.readPidfile, REvent.findProc pid, REvent.waitProc pid]
      if env.waitOk = false then (.error "wait failed", pre)
      else (.ok env.waitStatus, pre)

/-- Embeds `execRestore` of the native driver.  Two `defer`s are registered
(first the pidfile removal, then the cgroup cleanup), so on every exit path
the cgroup cleanup runs first and the pidfile removal last, both after the
body. -/
def execRestore (env : RestoreEnv) : Except String Int × List REvent :=
  let core := execRestoreCore env
  (core.1, core.2 ++ cgCleanupEvents env.cgroups ++ [REvent.removePidfile])

/-- Is an event a kill of some process? -/
def isKillEv : REvent → Bool
  | REvent.killProc _ => true
  | _ => false

/-- Is an event a wait on some process? -/
def isWaitEv : REvent → Bool
  | REvent.waitProc _ => true
  | _ => false

/-- Whether a trace contains a kill of some process. -/
def hasKill (evs : List REvent) : Bool := evs.any isKillEv

/-- Whether a trace contains a wait on some process. -/
def hasWait (evs : List REvent) : Bool := evs.any isWaitEv

/-- Number of cgroup-directory removals in a trace. -/
def cgRemoveCount (evs : List REvent) : Nat :=
  evs.countP fun e => match e with | REvent.cgRemove _ => true | _ => false

/-- The ordering asserted by the spec for the cgroup pre-cleanup: every
cgroup removal happens before the freezer tool is invoked, i.e. all
removals lie in the prefix of the trace preceding `runFreezer`. -/
def cgRemovalsBeforeRun (evs : List REvent) : Bool :=
  cgRemoveCount (evs.takeWhile fun e => e ≠ REvent.runFreezer) ==
    cgRemoveCount evs

/-- Embeds the argument computed by `ContainerCheckpoint` (both versions of
the handler) for `container.Checkpoint`: a usage error unless exactly two
job arguments are given, else the boolean `job.Args[1] == "1"`. -/
def containerCheckpointFlag : List String → Except String Bool
  | [_, b] => .ok (b == "1")
  | _ => .error "Usage: CONTAINER"

/-- Embeds `strings.Replace(mac, ":", "", -1)`: removes every colon. -/
def stripColons (s : String) : String :=
  ⟨s.data.filter fun c => c ≠ ':'⟩

/-- The directive arguments `patchImage` passes to the `patch-criu`
rewriter (everything after the source and destination directories). -/
def patchImageDirectives (ip mac : String) : List String :=
  ["ip=" ++ ip, "mac=" ++ stripColons mac]

/-- The full `patch-criu` argument vector built by `patchImage`. -/
def patchImageArgs (imagePath tmpdir ip mac : String) : List String :=
  [imagePath, tmpdir] ++ patchImageDirectives ip mac

/-- Recognizes a `cgroup=` directive. -/
def isCgroupDirective (s : String) : Bool :=
  "cgroup=".data.isPrefixOf s.data

/-- The four fixed `--ext-mount-map` pairs of the dump invocation. -/
def dumpSystemMountMaps : List String :=
  ["--ext-mount-map", "/etc/resolv.conf:/etc/resolv.conf",
   "--ext-mount-map", "/etc/hosts:/etc/hosts",
   "--ext-mount-map", "/etc/hostname:/etc/hostname",
   "--ext-mount-map", "/.dockerinit:/.dockerinit"]

/-- The fixed leading arguments of the dump invocation in `Checkpoint`. -/
def dumpFixedArgs : List String :=
  ["dump", "-v4", "-o", "/dev/stdout", "--manage-cgroups",
   "--evasive-devices"] ++ dumpSystemMountMaps

/-- The per-volume `--ext-mount-map` pairs appended by the loop over
`checkpoint.Volumes` (map enumeration order is an input). -/
def volumeMountMaps (vols : List (String × String)) : List String :=
  vols.flatMap fun hg => ["--ext-mount-map", hg.1 ++ ":" ++ hg.2]

/-- Embeds the freezer-tool argument list built by `Checkpoint` in the
native driver: the fixed arguments, then `-D`, `-t`, `--root`, then the
volume mount maps appended afterwards. -/
def checkpointDumpArgs (imagePath : String) (pid : Int) (rootfs : String)
    (vols : List (String × String)) : List String :=
  dumpFixedArgs ++ ["-D", imagePath, "-t", toString pid, "--root", rootfs]
    ++ volumeMountMaps vols

/-- Whether every `--ext-mount-map` flag of an argument list occurs before
the `-D` flag (the ordering the spec asserts for the dump arguments). -/
def extMapsBeforeD (args : List String) : Bool :=
  (args.takeWhile fun a => a ≠ "-D").countP (fun a => a = "--ext-mount-map")
    == args.countP fun a => a = "--ext-mount-map"

/-- Inputs of `ContainerCheckpoint.clone` from the filesystem: whether
`os.MkdirAll` succeeds, the directory listing of the source image directory
(`none` when `os.Open` or `Readdirnames` fails), and which hard links
succeed. -/
structure CloneEnv where
  mkdirOk : Bool
  dirents : Option (List String)
  linkOk : String → Bool

/-- Filesystem effects of `clone`: whether the target image directory was
created, whether it was removed again, and the names hard-linked into it. -/
structure CloneFx where
  dirCreated : Bool
  dirRemoved : Bool
  linked : List String
  deriving DecidableEq

/-- The hard-link loop of `clone`: skips `restore.pid`, links each entry,
and stops at the first failing link, whose name is returned. -/
def cloneLinkLoop (linkOk : String → Bool) :
    List String → Option String × List String
  | [] => (none, [])
  | name :: rest =>
    if name = "restore.pid" then cloneLinkLoop linkOk rest
    else if linkOk name then
      let out := cloneLinkLoop linkOk rest
      (out.1, name :: out.2)
    else (some name, [])

/-- Embeds `ContainerCheckpoint.clone`: create the target image directory,
list the source directory, hard-link the entries.  Every failure returns
the error as is; no path removes the created directory. -/
def cloneCheckpoint (env : CloneEnv) : Except String Unit × CloneFx :=
  if env.mkdirOk = false then (.error "mkdir failed", ⟨false, false, []⟩)
  else
    match env.dirents with
    | none => (.error "open or readdir failed", ⟨true, false, []⟩)
    | some names =>
      match cloneLinkLoop env.linkOk names with
      | (some name, l) => (.error ("link failed: " ++ name), ⟨true, false, l⟩)
      | (none, l) => (.ok (), ⟨true, false, l⟩)

/-- Embeds the clone branch of `ContainerRestore`: a failing
`checkpoint.clone` makes the job fail with the same error (`job.Errorf`);
nothing else is done with the target image directory. -/
def containerRestoreClonePath (env : CloneEnv) :
    Except String Unit × CloneFx :=
  match cloneCheckpoint env with
  | (.error e, fx) => (.error e, fx)
  | (.ok _, fx) => (.ok (), fx)

/-! ## Theorems -/

/-- C9: for a checkpoint job with exactly two arguments, the stop-after-dump
flag passed to `container.Checkpoint` is true iff the second argument is
exactly `"1"`; any other second argument yields the flag false, not an
error. -/
theorem C9_checkpoint_stop_flag (a b : String) :
    (containerCheckpointFlag [a, b] = .ok true ↔ b = "1") ∧
    (b ≠ "1" → containerCheckpointFlag [a, b] = .ok false) := by
  constructor
  · simp [containerCheckpointFlag]
  · intro h
    simp [containerCheckpointFlag, h]

/-- Concrete instance of `C9_checkpoint_stop_flag`: the second argument
`"true"` yields the flag false. -/
theorem C9_checkpoint_stop_flag_witness :
    containerCheckpointFlag ["cont", "true"] = .ok false :=
  (C9_checkpoint_stop_flag "cont" "true").2 (by decide)

/-- C4 counterexample: `patchImage` passes exactly two directives to the
rewriter — `ip=` then `mac=` — and no `cgroup=` directive, so the claimed
three-directive invocation is wrong at this concrete clone input. -/
theorem C4_counterexample :
    patchImageDirectives "172.17.0.3" "02:42:ac:11:00:03" =
      ["ip=172.17.0.3", "mac=0242ac110003"] ∧
    (patchImageDirectives "172.17.0.3" "02:42:ac:11:00:03").length ≠ 3 ∧
    "cgroup=/docker/abcd:/docker/ef01" ∉
      patchImageDirectives "172.17.0.3" "02:42:ac:11:00:03" := by
  refine ⟨by decide, by decide, by decide⟩

/-- C4 amended: for every clone, the rewriter is invoked on the target
image directory with exactly the two directives `ip=<target IPv4>` and
`mac=<target MAC, colons stripped>`, in that order; no directive is a
`cgroup=` directive. -/
theorem C4_amended (ip mac : String) :
    patchImageDirectives ip mac = ["ip=" ++ ip, "mac=" ++ stripColons mac] ∧
    ∀ d ∈ patchImageDirectives ip mac, isCgroupDirective d = false := by
  refine ⟨rfl, ?_⟩
  intro d hd
  simp only [patchImageDirectives, List.mem_cons, List.mem_singleton,
    List.not_mem_nil, or_false] at hd
  rcases hd with h | h <;> subst h <;>
    simp [isCgroupDirective, String.data_append, List.isPrefixOf]

/-- Concrete instance of `C4_amended`: the `ip=` directive of the clone of
scenario 5 is not a `cgroup=` directive. -/
theorem C4_amended_witness :
    isCgroupDirective "ip=172.17.0.3" = false :=
  (C4_amended "172.17.0.3" "02:42:ac:11:00:03").2 "ip=172.17.0.3" (by decide)

/-- Helper: a `HOST:GUEST` pair never equals the flag string, since it
contains a colon. -/
theorem hostGuestPair_ne_flag (h g : String) :
    h ++ ":" ++ g ≠ "--ext-mount-map" := by
  intro heq
  have hmem : ':' ∈ (h ++ ":" ++ g).data := by
    simp [String.data_append]
  rw [heq] at hmem
  revert hmem
  decide

/-- Helper: the volume mount maps contribute exactly one
`--ext-mount-map` flag per volume. -/
theorem volumeMountMaps_count (vols : List (String × String)) :
    (volumeMountMaps vols).countP (fun a => a = "--ext-mount-map")
      = vols.length := by
  induction vols with
  | nil => rfl
  | cons hg rest ih =>
    simp only [volumeMountMaps, List.flatMap_cons, List.countP_append,
      List.length_cons] at *
    rw [ih]
    have hne : (decide (hg.1 ++ ":" ++ hg.2 = "--ext-mount-map")) = false :=
      decide_eq_false (hostGuestPair_ne_flag hg.1 hg.2)
    simp [List.countP_cons, hne]
    omega

/-- C8 counterexample: with one volume mount, the dump argument list places
the volume's `--ext-mount-map` pair after `--root`, so not every
`--ext-mount-map` pair precedes `-D`. -/
theorem C8_counterexample :
    checkpointDumpArgs "/img" 1234 "/rootfs" [("/host/vol", "/guest/vol")] =
      ["dump", "-v4", "-o", "/dev/stdout", "--manage-cgroups",
       "--evasive-devices",
       "--ext-mount-map", "/etc/resolv.conf:/etc/resolv.conf",
       "--ext-mount-map", "/etc/hosts:/etc/hosts",
       "--ext-mount-map", "/etc/hostname:/etc/hostname",
       "--ext-mount-map", "/.dockerinit:/.dockerinit",
       "-D", "/img", "-t", "1234", "--root", "/rootfs",
       "--ext-mount-map", "/host/vol:/guest/vol"] ∧
    extMapsBeforeD (checkpointDumpArgs "/img" 1234 "/rootfs"
        [("/host/vol", "/guest/vol")]) = false := by
  refine ⟨by decide, by decide⟩

/-- C8 amended: the dump argument list is the fixed arguments (whose four
`--ext-mount-map` pairs are the system-file mappings) followed by
`-D <image-dir>`, `-t <pid>`, `--root <rootfs>`, followed by one
`--ext-mount-map` pair per volume mount, appended after `--root`. -/
theorem C8_amended (imagePath : String) (pid : Int) (rootfs : String)
    (vols : List (String × String)) :
    checkpointDumpArgs imagePath pid rootfs vols =
      dumpFixedArgs ++ ["-D", imagePath, "-t", toString pid, "--root", rootfs]
        ++ volumeMountMaps vols ∧
    dumpFixedArgs.countP (fun a => a = "--ext-mount-map") = 4 ∧
    (volumeMountMaps vols).countP (fun a => a = "--ext-mount-map")
      = vols.length :=
  ⟨rfl, by decide, volumeMountMaps_count vols⟩

/-- C6 counterexample: a failing hard link makes the clone fail with the
link error, with the target image directory created and never removed. -/
theorem C6_counterexample :
    containerRestoreClonePath
      ⟨true, some ["ifaddr-8.img"], fun _ => false⟩ =
      (.error "link failed: ifaddr-8.img", ⟨true, false, []⟩) := by
  rfl

/-- C6 amended: for every clone whose target directory creation succeeded,
a failure of enumeration or hard-linking propagates its error unchanged to
the restore job, but the partially created target image directory is left
in place: it is never removed on any path of `clone`/`ContainerRestore`. -/
theorem C6_amended (env : CloneEnv) (h : env.mkdirOk = true) :
    (containerRestoreClonePath env).1 = (cloneCheckpoint env).1 ∧
    (containerRestoreClonePath env).2 = (cloneCheckpoint env).2 ∧
    (cloneCheckpoint env).2.dirCreated = true ∧
    (cloneCheckpoint env).2.dirRemoved = false := by
  have hfx : (cloneCheckpoint env).2.dirCreated = true ∧
      (cloneCheckpoint env).2.dirRemoved = false := by
    unfold cloneCheckpoint
    rw [h]
    simp only [Bool.true_eq_false, if_false]
    cases env.dirents with
    | none => exact ⟨rfl, rfl⟩
    | some names =>
      dsimp only
      cases hloop : cloneLinkLoop env.linkOk names with
      | mk e l => cases e <;> exact ⟨rfl, rfl⟩
  have hprop : (containerRestoreClonePath env).1 = (cloneCheckpoint env).1 ∧
      (containerRestoreClonePath env).2 = (cloneCheckpoint env).2 := by
    rcases hc : cloneCheckpoint env with ⟨r, fx⟩
    unfold containerRestoreClonePath
    rw [hc]
    cases r <;> simp
  exact ⟨hprop.1, hprop.2, hfx.1, hfx.2⟩

/-- Concrete instance of `C6_amended`: a clone with one linkable file and a
failing link keeps its created target directory. -/
theorem C6_amended_witness :
    (cloneCheckpoint ⟨true, some ["a.img"], fun _ => false⟩).2.dirRemoved
      = false :=
  (C6_amended ⟨true, some ["a.img"], fun _ => false⟩ rfl).2.2.2

/-- Helper: every element of `bubbleAux c acc` is `c` or comes from `acc`. -/
theorem bubbleAux_mem {x c : Checkpoint} {acc : List Checkpoint}
    (h : x ∈ bubbleAux c acc) : x = c ∨ x ∈ acc := by
  induction acc with
  | nil =>
    simp only [bubbleAux, List.mem_singleton] at h
    exact Or.inl h
  | cons pred rest ih =>
    unfold bubbleAux at h
    by_cases hlt : pred.createdAt < c.createdAt
    · rw [if_pos hlt] at h
      simp only [List.mem_cons] at h ⊢
      tauto
    · rw [if_neg hlt] at h
      rcases List.mem_cons.mp h with h1 | h2
      · exact Or.inr (by simp [h1])
      · rcases ih h2 with h3 | h4
        · exact Or.inl h3
        · exact Or.inr (by simp [h4])

/-- Helper: the backwards bubble pass keeps the reversed accumulator sorted
by non-increasing creation time. -/
theorem bubbleAux_pairwise (c : Checkpoint) (acc : List Checkpoint)
    (h : acc.Pairwise fun a b => b.createdAt ≤ a.createdAt) :
    (bubbleAux c acc).Pairwise fun a b => b.createdAt ≤ a.createdAt := by
  induction acc with
  | nil => simp [bubbleAux]
  | cons pred rest ih =>
    rw [List.pairwise_cons] at h
    obtain ⟨hpred, hrest⟩ := h
    unfold bubbleAux
    by_cases hlt : pred.createdAt < c.createdAt
    · rw [if_pos hlt]
      refine List.Pairwise.cons ?_ (List.Pairwise.cons hpred hrest)
      intro x hx
      rcases List.mem_cons.mp hx with h1 | h2
      · rw [h1]; exact Nat.le_of_lt hlt
      · exact Nat.le_trans (hpred x h2) (Nat.le_of_lt hlt)
    · rw [if_neg hlt]
      refine List.Pairwise.cons ?_ (ih hrest)
      intro x hx
      rcases bubbleAux_mem hx with h1 | h2
      · rw [h1]; exact Nat.le_of_not_lt hlt
      · exact hpred x h2

/-- Helper: one outer-loop iteration preserves sortedness by non-decreasing
creation time. -/
theorem insertStep_pairwise (acc : List Checkpoint) (c : Checkpoint)
    (h : acc.Pairwise fun a b => a.createdAt ≤ b.createdAt) :
    (insertStep acc c).Pairwise fun a b => a.createdAt ≤ b.createdAt := by
  unfold insertStep
  rw [List.pairwise_reverse]
  exact bubbleAux_pairwise c acc.reverse (List.pairwise_reverse.mpr h)

/-- Helper: the fold of the outer loop preserves sortedness. -/
theorem foldl_insertStep_pairwise (l : List Checkpoint) :
    ∀ acc, (acc.Pairwise fun a b => a.createdAt ≤ b.createdAt) →
      (l.foldl insertStep acc).Pairwise
        fun a b => a.createdAt ≤ b.createdAt := by
  induction l with
  | nil => exact fun acc h => h
  | cons c rest ih =>
    exact fun acc h => ih (insertStep acc c) (insertStep_pairwise acc c h)

/-- Helper: when no accumulated element has a strictly earlier timestamp
than `c`, the bubble pass carries `c` all the way to the far end. -/
theorem bubbleAux_append (c : Checkpoint) (acc : List Checkpoint)
    (h : ∀ x ∈ acc, ¬ x.createdAt < c.createdAt) :
    bubbleAux c acc = acc ++ [c] := by
  induction acc with
  | nil => rfl
  | cons pred rest ih =>
    unfold bubbleAux
    rw [if_neg (h pred (by simp))]
    rw [ih fun x hx => h x (by simp [hx])]
    rfl

/-- Helper: under timestamp ties an outer-loop iteration prepends the new
checkpoint. -/
theorem insertStep_cons (acc : List Checkpoint) (c : Checkpoint)
    (h : ∀ x ∈ acc, ¬ x.createdAt < c.createdAt) :
    insertStep acc c = c :: acc := by
  unfold insertStep
  rw [bubbleAux_append c acc.reverse fun x hx =>
    h x (List.mem_reverse.mp hx)]
  simp

/-- Helper: with all timestamps equal to `t`, the fold reverses the
enumeration order. -/
theorem foldl_insertStep_ties (t : Nat) (l : List Checkpoint) :
    ∀ acc, (∀ a ∈ l, a.createdAt = t) → (∀ a ∈ acc, a.createdAt = t) →
      l.foldl insertStep acc = l.reverse ++ acc := by
  induction l with
  | nil => intro acc _ _; simp
  | cons c rest ih =>
    intro acc hl hacc
    have hc : c.createdAt = t := hl c (by simp)
    have hstep : insertStep acc c = c :: acc := by
      refine insertStep_cons acc c fun x hx => ?_
      rw [hacc x hx, hc]
      exact Nat.lt_irrefl t
    rw [List.foldl_cons, hstep,
      ih (c :: acc) (fun a ha => hl a (by simp [ha])) ?_]
    · simp
    · intro a ha
      rcases List.mem_cons.mp ha with h1 | h2
      · rw [h1]; exact hc
      · exact hacc a h2

/-- C2 counterexample: with two checkpoints created at times 1 and 2
(enumerated in that order), `ContainerInspect` returns them oldest first,
which is not descending; and with two equal-timestamp checkpoints the
enumeration order is reversed, not preserved. -/
theorem C2_counterexample :
    inspectCheckpoints [⟨"cp1", 1⟩, ⟨"cp2", 2⟩] =
      [⟨"cp1", 1⟩, ⟨"cp2", 2⟩] ∧
    ¬ (inspectCheckpoints [⟨"cp1", 1⟩, ⟨"cp2", 2⟩]).Pairwise
        (fun a b => b.createdAt ≤ a.createdAt) ∧
    inspectCheckpoints [⟨"cp1", 5⟩, ⟨"cp2", 5⟩] ≠
      [⟨"cp1", 5⟩, ⟨"cp2", 5⟩] := by
  refine ⟨by decide, by decide, by decide⟩

/-- C2 amended: enumerating a container's checkpoints as done during
container inspection returns them sorted by creation timestamp in
ascending order (oldest first); when all timestamps tie, the output is the
reverse of the order in which the map enumeration yielded them (which for a
Go map is itself unspecified). -/
theorem C2_amended (l : List Checkpoint) :
    ((inspectCheckpoints l).Pairwise
      fun a b => a.createdAt ≤ b.createdAt) ∧
    ((∀ a ∈ l, ∀ b ∈ l, a.createdAt = b.createdAt) →
      inspectCheckpoints l = l.reverse) := by
  constructor
  · exact foldl_insertStep_pairwise l [] (by simp)
  · intro hties
    cases l with
    | nil => rfl
    | cons c rest =>
      have := foldl_insertStep_ties c.createdAt (c :: rest) []
        (fun a ha => hties a ha c (by simp)) (by simp)
      simpa [inspectCheckpoints] using this

/-- Concrete instance of `C2_amended`: two equal-timestamp checkpoints come
back in reversed enumeration order. -/
theorem C2_amended_witness :
    inspectCheckpoints [⟨"cp1", 5⟩, ⟨"cp2", 5⟩] =
      [Checkpoint.mk "cp1" 5, Checkpoint.mk "cp2" 5].reverse :=
  (C2_amended _).2 (by decide)

/-- Helper: the deferred cgroup cleanup contains no kill event. -/
theorem cgCleanup_no_kill (cg : String → DirState) :
    (cgCleanupEvents cg).any isKillEv = false := by
  rw [List.any_eq_false]
  intro e he
  simp only [cgCleanupEvents, List.mem_flatMap] at he
  obtain ⟨a, _, he2⟩ := he
  rcases List.mem_cons.mp he2 with h1 | h2
  · subst h1; simp [isKillEv]
  · by_cases hm : cg a = DirState.missing
    · rw [if_pos hm] at h2
      exact absurd h2 (List.not_mem_nil _)
    · rw [if_neg hm] at h2
      rw [List.mem_singleton] at h2
      subst h2; simp [isKillEv]

/-- Helper: the deferred cgroup cleanup contains no wait event. -/
theorem cgCleanup_no_wait (cg : String → DirState) :
    (cgCleanupEvents cg).any isWaitEv = false := by
  rw [List.any_eq_false]
  intro e he
  simp only [cgCleanupEvents, List.mem_flatMap] at he
  obtain ⟨a, _, he2⟩ := he
  rcases List.mem_cons.mp he2 with h1 | h2
  · subst h1; simp [isWaitEv]
  · by_cases hm : cg a = DirState.missing
    · rw [if_pos hm] at h2
      exact absurd h2 (List.not_mem_nil _)
    · rw [if_neg hm] at h2
      rw [List.mem_singleton] at h2
      subst h2; simp [isWaitEv]

/-- Helper: no path of `execRestore` ever kills a process. -/
theorem execRestore_no_kill (env : RestoreEnv) :
    hasKill (execRestore env).2 = false := by
  rcases env with ⟨runOk, attachOk, upOk, pidfile, waitOk, ws, cg⟩
  cases runOk <;> cases attachOk <;> cases upOk <;> cases pidfile <;>
    cases waitOk <;>
    simp [execRestore, execRestoreCore, hasKill, List.any_append,
      cgCleanup_no_kill, isKillEv]

/-- Helper: failing before the pidfile is read, `execRestore` waits on
nothing. -/
theorem execRestore_no_wait_on_netfail (env : RestoreEnv)
    (hrun : env.runOk = true)
    (h : env.attachOk = false ∨ env.upOk = false) :
    hasWait (execRestore env).2 = false := by
  rcases env with ⟨runOk, attachOk, upOk, pidfile, waitOk, ws, cg⟩
  dsimp only at hrun h
  subst hrun
  rcases h with h | h
  · subst h
    cases upOk <;>
      simp [execRestore, execRestoreCore, hasWait, List.any_append,
        cgCleanup_no_wait, isWaitEv]
  · subst h
    cases attachOk <;>
      simp [execRestore, execRestoreCore, hasWait, List.any_append,
        cgCleanup_no_wait, isWaitEv]

/-- C3 counterexample: a restore in which every step succeeds but removing
`/sys/fs/cgroup/devices/docker/<id>` fails with EPERM still succeeds (the
removal error is discarded), and no cgroup removal happens before the
freezer tool is invoked — the cleanup runs from a `defer`, after the body. -/
theorem C3_counterexample :
    (execRestore ⟨true, true, true, some "4242", true, 0,
        fun s => if s = "devices" then DirState.presentEperm
          else DirState.missing⟩).1 = Except.ok 0 ∧
    cgRemoveCount (execRestore ⟨true, true, true, some "4242", true, 0,
        fun s => if s = "devices" then DirState.presentEperm
          else DirState.missing⟩).2 = 1 ∧
    cgRemovalsBeforeRun (execRestore ⟨true, true, true, some "4242", true, 0,
        fun s => if s = "devices" then DirState.presentEperm
          else DirState.missing⟩).2 = false := by
  refine ⟨rfl, by decide, by decide⟩

/-- C3 amended: the cgroup directory cleanup of `execRestore` runs after
the restore body on every exit path (it is deferred, so the freezer
invocation precedes it in the trace); its events are exactly a stat per
subsystem plus a removal attempt for each directory that exists; a missing
directory is tolerated silently (no removal attempted); and the operation
result never depends on the cgroup directory states, so a removal failure
such as EPERM never fails the restore. -/
theorem C3_amended (env : RestoreEnv) (g : String → DirState) :
    (execRestore { env with cgroups := g }).1 = (execRestore env).1 ∧
    (execRestore env).2 =
      (execRestoreCore env).2 ++ cgCleanupEvents env.cgroups
        ++ [REvent.removePidfile] ∧
    REvent.runFreezer ∈ (execRestoreCore env).2 ∧
    (∀ s, env.cgroups s = DirState.missing →
      REvent.cgRemove s ∉ cgCleanupEvents env.cgroups) := by
  refine ⟨?_, ?_, ?_, ?_⟩
  · cases env; rfl
  · simp [execRestore]
  · rcases env with ⟨runOk, attachOk, upOk, pidfile, waitOk, ws, cg⟩
    cases runOk <;> cases attachOk <;> cases upOk <;> cases pidfile <;>
      cases waitOk <;> simp [execRestoreCore]
  · intro s hs hmem
    simp only [cgCleanupEvents, List.mem_flatMap] at hmem
    obtain ⟨a, _, hmem2⟩ := hmem
    rcases List.mem_cons.mp hmem2 with h1 | h2
    · exact REvent.noConfusion h1
    · by_cases hm : env.cgroups a = DirState.missing
      · rw [if_pos hm] at h2
        exact absurd h2 (List.not_mem_nil _)
      · rw [if_neg hm] at h2
        rw [List.mem_singleton] at h2
        injection h2 with h3
        subst h3
        exact hm hs

/-- Concrete instance of `C3_amended`: with all cgroup directories missing,
no removal is attempted. -/
theorem C3_amended_witness :
    REvent.cgRemove "devices" ∉
      cgCleanupEvents (fun _ => DirState.missing) :=
  (C3_amended ⟨true, true, true, some "1", true, 0, fun _ => DirState.missing⟩
    (fun _ => DirState.present)).2.2.2 "devices" rfl

/-- C7 counterexample: when attaching the host-side veth to the bridge
fails, the restore fails — but the trace contains neither a kill nor a wait
of the restored process: it is left running, not torn down. -/
theorem C7_counterexample :
    (execRestore ⟨true, false, true, some "4242", true, 0,
        fun _ => DirState.missing⟩).1 =
      Except.error "set interface master failed" ∧
    hasKill (execRestore ⟨true, false, true, some "4242", true, 0,
        fun _ => DirState.missing⟩).2 = false ∧
    hasWait (execRestore ⟨true, false, true, some "4242", true, 0,
        fun _ => DirState.missing⟩).2 = false := by
  refine ⟨rfl, by decide, by decide⟩

/-- C7 amended: if attaching the host-side veth endpoint to the bridge or
bringing it up fails, the restore operation fails with that error, but the
driver performs no teardown of the already-spawned restored process: the
trace contains no kill and no wait of any process. -/
theorem C7_amended (env : RestoreEnv) (hrun : env.runOk = true)
    (h : env.attachOk = false ∨ env.upOk = false) :
    (∃ msg, (execRestore env).1 = Except.error msg) ∧
    hasKill (execRestore env).2 = false ∧
    hasWait (execRestore env).2 = false := by
  refine ⟨?_, execRestore_no_kill env, execRestore_no_wait_on_netfail env hrun h⟩
  rcases env with ⟨runOk, attachOk, upOk, pidfile, waitOk, ws, cg⟩
  dsimp only at hrun h
  subst hrun
  rcases h with h | h
  · subst h
    cases upOk <;> simp [execRestore, execRestoreCore]
  · subst h
    cases attachOk <;> simp [execRestore, execRestoreCore]

/-- Concrete instance of `C7_amended`: failing `InterfaceUp` leaves the
restored process neither killed nor waited on. -/
theorem C7_amended_witness :
    hasKill (execRestore ⟨true, true, false, some "7", true, 0,
      fun _ => DirState.missing⟩).2 = false ∧
    hasWait (execRestore ⟨true, true, false, some "7", true, 0,
      fun _ => DirState.missing⟩).2 = false :=
  ⟨(C7_amended ⟨true, true, false, some "7", true, 0,
      fun _ => DirState.missing⟩ rfl (Or.inr rfl)).2.1,
   (C7_amended ⟨true, true, false, some "7", true, 0,
      fun _ => DirState.missing⟩ rfl (Or.inr rfl)).2.2⟩

/-- C10: when the pidfile is readable but its contents are not a valid
decimal integer, `execRestore` reports no pidfile error: the parse failure
is discarded, PID 0 is used to locate and wait on the restored process, and
(when the wait behaves normally) the restore returns the wait status. -/
theorem C10_pidfile_parse_discarded (env : RestoreEnv) (s : String)
    (hrun : env.runOk = true) (hat : env.attachOk = true)
    (hup : env.upOk = true) (hp : env.pidfile = some s)
    (hbad : goAtoiSyn s = none) :
    (env.waitOk = true → (execRestore env).1 = Except.ok env.waitStatus) ∧
    REvent.findProc 0 ∈ (execRestore env).2 ∧
    REvent.waitProc 0 ∈ (execRestore env).2 := by
  rcases env with ⟨runOk, attachOk, upOk, pidfile, waitOk, ws, cg⟩
  dsimp only at hrun hat hup hp ⊢
  subst hrun; subst hat; subst hup; subst hp
  have hz : goAtoi s = 0 := by rw [goAtoi, hbad]; rfl
  cases waitOk <;>
    simp [execRestore, execRestoreCore, hz]

/-- Concrete instance of `C10_pidfile_parse_discarded`: a pidfile holding
`"123\n"` (a PID followed by a newline) yields no error and a wait on
PID 0. -/
theorem C10_pidfile_parse_discarded_witness :
    (execRestore ⟨true, true, true, some "123\n", true, 7,
        fun _ => DirState.missing⟩).1 = Except.ok 7 ∧
    REvent.waitProc 0 ∈ (execRestore ⟨true, true, true, some "123\n", true,
        7, fun _ => DirState.missing⟩).2 :=
  ⟨(C10_pidfile_parse_discarded _ "123\n" rfl rfl rfl rfl (by decide)).1 rfl,
   (C10_pidfile_parse_discarded _ "123\n" rfl rfl rfl rfl (by decide)).2.2⟩

/-- Helper: the index returned by `bytesIndex` is a genuine occurrence. -/
theorem bytesIndex_isPrefix {data pat : Bytes} {pos : Nat}
    (h : bytesIndex data pat = some pos) :
    pat.isPrefixOf (data.drop pos) = true := by
  induction data generalizing pos with
  | nil =>
    unfold bytesIndex at h
    by_cases hp : pat.isPrefixOf ([] : Bytes)
    · rw [if_pos hp] at h
      injection h with h2
      subst h2
      simpa using hp
    · rw [if_neg hp] at h
      exact absurd h (by simp)
  | cons a rest ih =>
    unfold bytesIndex at h
    by_cases hp : pat.isPrefixOf (a :: rest)
    · rw [if_pos hp] at h
      injection h with h2
      subst h2
      simpa using hp
    · rw [if_neg hp] at h
      obtain ⟨p, hp2, hp3⟩ := Option.map_eq_some'.mp h
      subst hp3
      simpa using ih hp2

/-- Helper: overwriting an occurrence of `pat` with `pat` itself leaves the
buffer unchanged. -/
theorem listCopy_self {data pat : Bytes} {pos : Nat}
    (h : pat.isPrefixOf (data.drop pos) = true) :
    listCopy data pos pat = data := by
  obtain ⟨t, ht⟩ := List.isPrefixOf_iff_prefix.mp h
  have hlen : pat.length ≤ data.length - pos := by
    rw [← List.length_drop, ← ht]
    simp
  unfold listCopy
  rw [List.take_of_length_le hlen]
  have h2 : data.drop (pos + pat.length) = t := by
    rw [← List.drop_drop, ← ht, List.drop_left]
  rw [h2]
  conv_rhs => rw [← List.take_append_drop pos data, ← ht]
  simp

/-- Helper: when the pattern occurs in the buffer and equals the
replacement, the `rewriteBytes` loop never terminates: no fuel suffices. -/
theorem rewriteBytes_self_none (fuel : Nat) :
    ∀ (data pat : Bytes) (pos : Nat), bytesIndex data pat = some pos →
      rewriteBytes fuel data pat pat = none := by
  induction fuel with
  | zero => intro data pat pos _; rfl
  | succ n ih =>
    intro data pat pos h
    simp only [rewriteBytes, h, listCopy_self (bytesIndex_isPrefix h),
      ih data pat pos h]

/-- Helper: the `eth0` address update is idempotent. -/
theorem updEntry_idem (macHex : Bytes) (e : NetDeviceEntry) :
    updEntry macHex (updEntry macHex e) = updEntry macHex e := by
  unfold updEntry
  by_cases hn : e.name = some "eth0" <;> simp [hn]

/-- Helper: with a decodable MAC the record loop succeeds and rewrites
every record through `updEntry`. -/
theorem rewriteMacGo_ok (mac : List Char) (macHex : Bytes)
    (h : hexDecode mac = some macHex) (entries : List NetDeviceEntry) :
    rewriteMacGo mac entries = (entries.map (updEntry macHex), none) := by
  induction entries with
  | nil => rfl
  | cons e rest ih =>
    by_cases hn : e.name = some "eth0" <;>
      simp [rewriteMacGo, hn, h, ih, updEntry]

/-- Helper: with an undecodable MAC the record loop fails at the first
`eth0` record, having written exactly the records before it. -/
theorem rewriteMacGo_hexfail (mac : List Char)
    (hbad : hexDecode mac = none) :
    ∀ (pre : List NetDeviceEntry) (e : NetDeviceEntry)
      (post : List NetDeviceEntry), e.name = some "eth0" →
      (∀ x ∈ pre, x.name ≠ some "eth0") →
      rewriteMacGo mac (pre ++ e :: post) = (pre, some "invalid mac hex") := by
  intro pre
  induction pre with
  | nil =>
    intro e post he _
    simp [rewriteMacGo, he, hbad]
  | cons p rest ih =>
    intro e post he hpre
    have hp : p.name ≠ some "eth0" := hpre p (by simp)
    simp only [List.cons_append, rewriteMacGo, if_neg hp, List.append_eq]
    rw [ih e post he fun x hx => hpre x (by simp [hx])]

/-- C1 counterexample: an `ip=` rewrite whose old address occurs in
`ifaddr-8.img` but not in `route-8.img` fails with the route pattern error,
yet the destination `ifaddr-8.img` has already been overwritten with the
rewritten bytes — the failing directive does not leave every destination
file it targets untouched. -/
theorem C1_counterexample :
    rewriteIPAddress 10
      ⟨some [172, 17, 0, 2], some [9, 9], true, some [172, 17, 0, 2], true,
        [10, 0, 0, 5]⟩
      ⟨some [1], some [2]⟩ =
      some (.error "cant find old address pos in ip route dump",
        ⟨some [10, 0, 0, 5], some [2]⟩) ∧
    (⟨some [10, 0, 0, 5], some [2]⟩ : IpDest) ≠ ⟨some [1], some [2]⟩ := by
  refine ⟨rfl, by decide⟩

/-- C1 amended: a directive failing before its first destination write
leaves the destination untouched — in particular an `ip=` whose old
address yields zero substitutions in `ifaddr-8.img` changes neither
destination file.  But a later failure does not roll back: an `ip=`
failing with zero substitutions in `route-8.img` has already written the
rewritten `ifaddr-8.img` to the destination, and a `mac=` directive whose
value fails hex decoding has already recreated the destination
`netdev-8.img`, leaving it holding exactly the records preceding the first
`eth0` record. -/
theorem C1_amended :
    (∀ (fuel : Nat) (env : IpEnv) (dest : IpDest) (data old d2 : Bytes),
      env.srcIfaddr = some data → env.dumpOk = true →
      env.found = some old → env.newParseOk = true →
      rewriteBytes fuel data old env.newAddr = some (d2, 0) →
      rewriteIPAddress fuel env dest =
        some (.error "cant find old address pos in ip addr dump", dest)) ∧
    (∀ (fuel : Nat) (env : IpEnv) (dest : IpDest) (data old d2 rd r2 : Bytes)
      (n : Nat),
      env.srcIfaddr = some data → env.dumpOk = true →
      env.found = some old → env.newParseOk = true →
      rewriteBytes fuel data old env.newAddr = some (d2, n) → 0 < n →
      env.srcRoute = some rd →
      rewriteBytes fuel rd old env.newAddr = some (r2, 0) →
      rewriteIPAddress fuel env dest =
        some (.error "cant find old address pos in ip route dump",
          ⟨some d2, dest.route⟩)) ∧
    (∀ (dpr : Option (List NetDeviceEntry)) (mac : List Char)
      (pre : List NetDeviceEntry) (e : NetDeviceEntry)
      (post : List NetDeviceEntry),
      hexDecode mac = none → e.name = some "eth0" →
      (∀ x ∈ pre, x.name ≠ some "eth0") →
      rewriteMacAddress (some (pre ++ e :: post)) dpr mac =
        (.error "invalid mac hex", some pre)) := by
  refine ⟨?_, ?_, ?_⟩
  · intro fuel env dest data old d2 h1 h2 h3 h4 h5
    simp [rewriteIPAddress, h1, h2, h3, h4, h5]
  · intro fuel env dest data old d2 rd r2 n h1 h2 h3 h4 h5 hn h6 h7
    have hn1 : ¬ n < 1 := by omega
    simp [rewriteIPAddress, h1, h2, h3, h4, h5, hn1, h6, h7]
  · intro dpr mac pre e post hbad he hpre
    simp only [rewriteMacAddress]
    rw [rewriteMacGo_hexfail mac hbad pre e post he hpre]

/-- Concrete instance of `C1_amended`: zero substitutions in
`ifaddr-8.img` leave the destination untouched, and a bad-hex `mac=`
leaves a freshly recreated empty destination `netdev-8.img`. -/
theorem C1_amended_witness :
    rewriteIPAddress 5
      ⟨some [7], some [8], true, some [1, 2, 3, 4], true, [9, 9, 9, 9]⟩
      ⟨none, none⟩ =
      some (.error "cant find old address pos in ip addr dump",
        ⟨none, none⟩) ∧
    rewriteMacAddress (some [⟨some "eth0", [1], []⟩])
      (some [⟨some "old", [2], []⟩]) ['z'] =
      (.error "invalid mac hex", some []) :=
  ⟨C1_amended.1 5 _ _ [7] [1, 2, 3, 4] [7] rfl rfl rfl rfl (by decide),
   C1_amended.2.2 (some [⟨some "old", [2], []⟩]) ['z'] [] ⟨some "eth0", [1], []⟩
     [] (by decide) rfl (fun x hx => absurd hx (List.not_mem_nil x))⟩

/-- C5 counterexample: applying the same `ip=` directive to a directory
already rewritten to `10.0.0.5` discovers `10.0.0.5` as the old address and
substitutes it by itself; the substitution loop then never terminates, so
the second application does not complete with any outcome. -/
theorem C5_counterexample :
    ¬ ipRewriteTerminates
      ⟨some [10, 0, 0, 5, 9], some [3], true, some [10, 0, 0, 5], true,
        [10, 0, 0, 5]⟩ ⟨none, none⟩ := by
  rintro ⟨fuel, r, hr⟩
  have hidx : bytesIndex [10, 0, 0, 5, 9] [10, 0, 0, 5] = some 0 := by decide
  have hnone := rewriteBytes_self_none fuel [10, 0, 0, 5, 9] [10, 0, 0, 5] 0 hidx
  simp [rewriteIPAddress, hnone] at hr

/-- C5 amended: a second application of the same `mac=` directive to an
already-rewritten `netdev-8.img` terminates and is a no-op (it reproduces
the same records); but a second application of the same `ip=` directive to
an already-rewritten directory never completes — the discovered old address
equals the new one and the substitution loop runs forever. -/
theorem C5_amended :
    (∀ (mac : List Char) (macHex : Bytes) (entries : List NetDeviceEntry)
      (dpr : Option (List NetDeviceEntry)), hexDecode mac = some macHex →
      rewriteMacAddress (some (entries.map (updEntry macHex))) dpr mac =
        (.ok (), some (entries.map (updEntry macHex)))) ∧
    (∀ (fuel : Nat) (env : IpEnv) (dest : IpDest) (data : Bytes) (pos : Nat),
      env.srcIfaddr = some data → env.dumpOk = true →
      env.found = some env.newAddr → env.newParseOk = true →
      bytesIndex data env.newAddr = some pos →
      rewriteIPAddress fuel env dest = none) := by
  constructor
  · intro mac macHex entries dpr h
    simp only [rewriteMacAddress]
    rw [rewriteMacGo_ok mac macHex h]
    have hmap : (entries.map (updEntry macHex)).map (updEntry macHex) =
        entries.map (updEntry macHex) := by
      rw [List.map_map]
      exact List.map_congr_left fun e _ => updEntry_idem macHex e
    rw [hmap]
  · intro fuel env dest data pos h1 h2 h3 h4 hidx
    have hnone := rewriteBytes_self_none fuel data env.newAddr pos hidx
    simp [rewriteIPAddress, h1, h2, h3, h4, hnone]

/-- Concrete instance of `C5_amended`: a repeated `mac=0242` rewrite is a
no-op, and a repeated `ip=` rewrite runs out of any amount of fuel. -/
theorem C5_amended_witness :
    rewriteMacAddress
      (some (List.map (updEntry [2, 66]) [⟨some "eth0", [0], []⟩]))
      none ['0', '2', '4', '2'] =
      (.ok (), some (List.map (updEntry [2, 66]) [⟨some "eth0", [0], []⟩])) ∧
    rewriteIPAddress 3
      ⟨some [10, 0, 0, 5], some [3], true, some [10, 0, 0, 5], true,
        [10, 0, 0, 5]⟩ ⟨none, none⟩ = none :=
  ⟨C5_amended.1 ['0', '2', '4', '2'] [2, 66] [⟨some "eth0", [0], []⟩] none
      (by decide),
   C5_amended.2 3 _ ⟨none, none⟩ [10, 0, 0, 5] 0 rfl rfl rfl rfl (by decide)⟩

end DockerCR
